import Mathlib

/-!
Verification development for the `sagecoffee` client library.

The definitions below are a shallow embedding of the Python sources:
`src/sagecoffee/models.py` (token data model and expiry computation),
`src/sagecoffee/auth.py` (token refresh exchange), `src/sagecoffee/client.py`
(the `TokenManager` with its single-flight refresh lock), and
`src/sagecoffee/ws_client.py` (the WebSocket client: message dispatch,
state cache, appliance registration/replay, and reconnect backoff).

Time is modelled in whole seconds as `Int` (the code compares
timezone-aware datetimes; only the arithmetic on seconds matters for the
claims).  JWT decoding (`decode_jwt_without_verify`) is modelled as an
oracle `JwtDec : String -> Option (Option Int)`: `none` means the decode
raised, `some none` means the payload has no `exp` claim, and
`some (some e)` means the payload carries `exp = e`.
-/

namespace SageCoffee

/-- Python truthiness of an optional string: `None` and `""` are falsy. -/
def pyTruthy : Option String → Bool
  | none => false
  | some s => !s.isEmpty

/-- Python `a or b` on optional strings: yields `a` when truthy, else `b`. -/
def pyOr (a b : Option String) : Option String :=
  if pyTruthy a then a else b

/-- Outcome of `decode_jwt_without_verify` followed by `payload.get("exp")`:
`none` = decode raised; `some none` = no `exp` claim; `some (some e)` = `exp = e`. -/
def JwtDec : Type := String → Option (Option Int)

/-- `TokenSet` from `models.py`: OAuth token set with issue time and validity. -/
structure TokenSet where
  access_token : Option String := none
  id_token : Option String := none
  refresh_token : Option String := none
  expires_in : Int := 86400
  token_type : String := "Bearer"
  scope : Option String := none
  obtained_at : Int
  deriving Repr, DecidableEq

/-- `TokenSet.is_expired` from `models.py` lines 25-51.

If neither token is truthy, the set is expired.  Otherwise the code picks
`self.id_token or self.access_token`, tries to decode its JWT payload, and
when an `exp` claim is present and truthy (nonzero) compares
`now >= exp - skew`.  On any decode failure, missing `exp`, or falsy `exp`
it falls back to `now >= obtained_at + expires_in - skew`. -/
def TokenSet.is_expired (ts : TokenSet) (dec : JwtDec) (now : Int)
    (skew : Int := 60) : Bool :=
  if !pyTruthy ts.id_token && !pyTruthy ts.access_token then
    true
  else
    let token := pyOr ts.id_token ts.access_token
    let viaJwt : Option Bool :=
      match token with
      | some t =>
        if pyTruthy (some t) then
          match dec t with
          | some (some e) => if e ≠ 0 then some (decide (now ≥ e - skew)) else none
          | _ => none
        else none
      | none => none
    match viaJwt with
    | some b => b
    | none => decide (now ≥ ts.obtained_at + ts.expires_in - skew)

/-- The fields of a successful JSON response from the OAuth token endpoint,
as read by `AuthClient.refresh` / `SyncAuthClient.refresh` in `auth.py`
via `data.get(...)`.  A field is `none` when the key is absent. -/
structure OAuthResponse where
  access_token : Option String := none
  id_token : Option String := none
  refresh_token : Option String := none
  expires_in : Option Int := none
  token_type : Option String := none
  scope : Option String := none
  deriving Repr, DecidableEq

/-- Construction of the new `TokenSet` from a successful refresh response,
as in `AuthClient.refresh` (`auth.py` lines 209-218) and identically in
`SyncAuthClient.refresh` (lines 314-323).  `presented` is the refresh token
that was sent in the request; `data.get("refresh_token", refresh_token)`
falls back to it when the response omits the key ("May not be rotated"). -/
def refreshTokenSetFromResponse (presented : String) (data : OAuthResponse)
    (now : Int) : TokenSet :=
  { access_token := data.access_token
    id_token := data.id_token
    refresh_token := some (data.refresh_token.getD presented)
    expires_in := data.expires_in.getD 86400
    token_type := data.token_type.getD "Bearer"
    scope := data.scope
    obtained_at := now }

/-! ## TokenManager (`client.py`)

The manager's mutable state is just its cached `Option TokenSet`
(`self._tokens`).  The network exchange performed by
`self._auth_client.refresh(refresh_token)` is a parameter
`exchange : String → Except Unit TokenSet`; `.error ()` models the HTTP
call raising (`UpstreamRejected`).  Each operation returns the post-state
together with its result; on an exception the post-state is the state at
raise time, and in the source every raise in these methods happens before
the single assignment `self.tokens = new_tokens`. -/

/-- Cached state of `TokenManager`. -/
structure TMState where
  tokens : Option TokenSet
  deriving Repr, DecidableEq

/-- Errors raised by `TokenManager` operations (`ValueError`s in the source,
distinguished here by their message). -/
inductive TMError
  | noTokens          -- "No tokens available"
  | noRefreshToken    -- "No refresh_token available"
  | upstreamRejected  -- the auth client's HTTP refresh call raised
  | noIdToken         -- "No id_token available after refresh"
  | noAccessToken     -- "No access_token available after refresh"
  | refreshFailed     -- "Refresh failed"
  deriving Repr, DecidableEq

/-- `TokenManager._refresh` (`client.py` lines 124-131), run under the lock.
Raises when there is no token set or its `refresh_token` is falsy;
otherwise performs the exchange and, only on success, replaces the cached
set wholesale.  Returns the post-state and `some` error if it raised. -/
def refreshInner (exchange : String → Except Unit TokenSet) (s : TMState) :
    TMState × Option TMError :=
  match s.tokens with
  | none => (s, some .noRefreshToken)
  | some ts =>
    match ts.refresh_token with
    | none => (s, some .noRefreshToken)
    | some rt =>
      if rt.isEmpty then (s, some .noRefreshToken)
      else
        match exchange rt with
        | .error _ => (s, some .upstreamRejected)
        | .ok newTokens => (⟨some newTokens⟩, none)

/-- `TokenManager.refresh` (`client.py` lines 111-122): force a refresh,
returning the fresh set (a `TokenSet` instance is always truthy, so
`if not self._tokens` means "is None"). -/
def forceRefresh (exchange : String → Except Unit TokenSet) (s : TMState) :
    TMState × Except TMError TokenSet :=
  match refreshInner exchange s with
  | (s1, some e) => (s1, .error e)
  | (s1, none) =>
    match s1.tokens with
    | none => (s1, .error .refreshFailed)
    | some ts => (s1, .ok ts)

/-- Read `self._tokens.access_token` and raise unless truthy, then return it
(`client.py` lines 106-109). -/
def readAccessToken (ts : TokenSet) : Except TMError String :=
  match ts.access_token with
  | none => .error .noAccessToken
  | some a => if a.isEmpty then .error .noAccessToken else .ok a

/-- Read `self._tokens.id_token` and raise unless truthy, then return it
(`client.py` lines 83-86). -/
def readIdToken (ts : TokenSet) : Except TMError String :=
  match ts.id_token with
  | none => .error .noIdToken
  | some a => if a.isEmpty then .error .noIdToken else .ok a

/-- `TokenManager.get_access_token` (`client.py` lines 88-109), the body run
under the lock: raise if no tokens; refresh if expired; then return the
access token (raising if it is falsy). -/
def getAccess (dec : JwtDec) (now skew : Int)
    (exchange : String → Except Unit TokenSet) (s : TMState) :
    TMState × Except TMError String :=
  match s.tokens with
  | none => (s, .error .noTokens)
  | some ts =>
    let step := if ts.is_expired dec now skew then refreshInner exchange s
                else (s, none)
    match step with
    | (s1, some e) => (s1, .error e)
    | (s1, none) =>
      match s1.tokens with
      | none => (s1, .error .noAccessToken)
      | some ts1 => (s1, readAccessToken ts1)

/-- `TokenManager.get_id_token` (`client.py` lines 65-86), the body run
under the lock. -/
def getId (dec : JwtDec) (now skew : Int)
    (exchange : String → Except Unit TokenSet) (s : TMState) :
    TMState × Except TMError String :=
  match s.tokens with
  | none => (s, .error .noTokens)
  | some ts =>
    let step := if ts.is_expired dec now skew then refreshInner exchange s
                else (s, none)
    match step with
    | (s1, some e) => (s1, .error e)
    | (s1, none) =>
      match s1.tokens with
      | none => (s1, .error .noIdToken)
      | some ts1 => (s1, readIdToken ts1)

/-- The cached set carries a (truthy) renewal secret. -/
def hasRenewalSecret (s : TMState) : Bool :=
  match s.tokens with
  | none => false
  | some ts => pyTruthy ts.refresh_token

/-! ## WebSocket client (`ws_client.py`) -/

/-- JSON values, as produced by `json.loads` on an inbound frame. -/
inductive Json
  | null
  | bool (b : Bool)
  | num (n : Int)
  | str (s : String)
  | arr (xs : List Json)
  | obj (kvs : List (String × Json))

/-- `dict.get(key)` on a JSON object; `none` on a non-object or missing key. -/
def Json.get : Json → String → Option Json
  | .obj kvs, k => (kvs.find? (fun p => p.1 == k)).map (fun p => p.2)
  | _, _ => none

/-- `StateReport` (`models.py` lines 78-86) after pydantic validation:
`serialNumber : str` and `data : dict` are required, `messageType` must be
the literal `"stateReport"`, `version : int | None` is optional. -/
structure StateReport where
  serial_number : String
  data : List (String × Json)
  version : Option Int := none

/-- `StateReport.model_validate(data)`: `none` models pydantic raising a
validation error. -/
def StateReport.model_validate (j : Json) : Option StateReport :=
  match j.get "serialNumber", j.get "messageType", j.get "data" with
  | some (.str sn), some (.str mt), some (.obj d) =>
    if mt = "stateReport" then
      match j.get "version" with
      | some (.num v) => some ⟨sn, d, some v⟩
      | some .null => some ⟨sn, d, none⟩
      | none => some ⟨sn, d, none⟩
      | _ => none
    else none
  | _, _, _ => none

/-- `DeviceState` (`models.py` lines 97-172): the parsed state kept in the
cache (the derived temperature/state views are pure projections of
`raw_data` and are not needed by the claims). -/
structure DeviceState where
  raw_data : List (String × Json)
  serial_number : String
  version : Option Int := none

/-- `DeviceState.from_state_report` (`models.py` lines 165-172). -/
def DeviceState.from_state_report (r : StateReport) : DeviceState :=
  { raw_data := r.data, serial_number := r.serial_number, version := r.version }

/-- The state cache `self._state_cache : dict[str, DeviceState]`, modelled as
an association list in Python-dict insertion order. -/
abbrev Cache : Type := List (String × DeviceState)

/-- `self._state_cache[key] = value`: Python dict assignment replaces an
existing entry in place (keeping its position) or appends a new one. -/
def Cache.update (c : Cache) (k : String) (v : DeviceState) : Cache :=
  if (List.any c (fun p => p.1 == k)) then
    List.map (fun p => if p.1 == k then (k, v) else p) c
  else c ++ [(k, v)]

/-- `self._state_cache.get(serial)` as used by `get_last_state`. -/
def Cache.getEntry (c : Cache) (k : String) : Option DeviceState :=
  (List.find? (fun p => p.1 == k) c).map (fun p => p.2)

/-- Observable effects of one `_handle_message` call: the payloads passed to
a registered `on_raw_message` callback, the states passed to a registered
`on_state` callback, and whether a parse-failure warning was logged. -/
structure Effects where
  raws : List Json
  states : List DeviceState
  warned : Bool

/-- `BrevilleWsClient._handle_message` (`ws_client.py` lines 191-236).

The raw-message callback is invoked unconditionally first (line 199-200);
then the message is classified by `messageType`: `"pong"` returns with a
debug log only; `"stateReport"` validates, updates the cache and invokes
the state callback, any exception being caught and logged as a warning;
otherwise a `"Forbidden"` message or an unknown type is only logged. -/
def handleMessage (cache : Cache) (data : Json) : Cache × Effects :=
  let raws := [data]
  match data.get "messageType" with
  | some (.str "pong") => (cache, ⟨raws, [], false⟩)
  | some (.str "stateReport") =>
    match StateReport.model_validate data with
    | some report =>
      let state := DeviceState.from_state_report report
      (Cache.update cache report.serial_number state, ⟨raws, [state], false⟩)
    | none => (cache, ⟨raws, [], true⟩)
  | _ => (cache, ⟨raws, [], false⟩)

/-- One inbound frame, by the outcome of `json.loads` on it:
`malformed` models the text raising `json.JSONDecodeError`. -/
inductive Frame
  | malformed
  | data (j : Json)

/-- Accumulated observable state of `_receive_loop` (`ws_client.py` lines
238-258): the cache, the messages yielded to `listen`, the callback
invocations, and the two warning counters (invalid JSON at line 258,
state-report parse failure at line 227). -/
structure LoopState where
  cache : Cache
  yielded : List Json
  raws : List Json
  states : List DeviceState
  jsonWarnings : Nat
  parseWarnings : Nat

/-- Processing of one frame by `_receive_loop`: a frame that fails
`json.loads` is logged and skipped; otherwise `_handle_message` runs and
the decoded message is yielded. -/
def receiveStep (st : LoopState) (f : Frame) : LoopState :=
  match f with
  | .malformed => { st with jsonWarnings := st.jsonWarnings + 1 }
  | .data j =>
    let r := handleMessage st.cache j
    { cache := r.1
      yielded := st.yielded ++ [j]
      raws := st.raws ++ r.2.raws
      states := st.states ++ r.2.states
      jsonWarnings := st.jsonWarnings
      parseWarnings := st.parseWarnings + (if r.2.warned then 1 else 0) }

/-- `_receive_loop` over a finite sequence of inbound frames. -/
def receiveLoop (st : LoopState) (fs : List Frame) : LoopState :=
  List.foldl receiveStep st fs

/-- An outbound control message sent over the WebSocket
(`AddApplianceMessage` / `PingMessage` in `models.py`). -/
inductive OutMsg
  | addAppliance (serial app model : String)
  | ping
  deriving Repr, DecidableEq

/-- The parts of `BrevilleWsClient` state that appliance registration and
replay touch: the registered `(serial, app, model)` triples
(`self._appliances`), whether a transport handle is held
(`self._ws is not None`), and the control messages sent over the current
connection. -/
structure WsState where
  appliances : List (String × String × String)
  connected : Bool
  sent : List OutMsg
  deriving Repr, DecidableEq

/-- `BrevilleWsClient.add_appliance` (`ws_client.py` lines 136-168): the
triple is appended to `self._appliances` unless already present; if no
transport handle is held the call logs a warning and returns, otherwise it
sends the `addAppliance` message. -/
def addAppliance (s : WsState) (serial app model : String) : WsState :=
  let appliance := (serial, app, model)
  let apps := if appliance ∈ s.appliances then s.appliances
              else s.appliances ++ [appliance]
  if !s.connected then { s with appliances := apps }
  else { s with appliances := apps
                sent := s.sent ++ [.addAppliance serial app model] }

/-- Replay of every registered appliance via `add_appliance`, as done after
`_connect()` both in `_reconnect_with_backoff` (`ws_client.py` lines
291-293) and in `listen` (lines 338-340). -/
def replayAppliances (s : WsState) : WsState :=
  List.foldl (fun st t => addAppliance st t.1 t.2.1 t.2.2) s s.appliances

/-- Establishing a connection and replaying registrations: `_connect()`
hands the client a fresh transport handle (over which nothing has been
sent yet), then every registered appliance is re-sent. -/
def connectAndReplay (s : WsState) : WsState :=
  replayAppliances { s with connected := true, sent := [] }

/-! ### Reconnect backoff (`ws_client.py` lines 267-293 and 130-134) -/

/-- `RECONNECT_BASE_DELAY` (seconds). -/
def RECONNECT_BASE_DELAY : Nat := 1

/-- `RECONNECT_MAX_DELAY` (seconds). -/
def RECONNECT_MAX_DELAY : Nat := 30

/-- Outcome of the `_connect()` call at the end of
`_reconnect_with_backoff`. -/
inductive ConnectOutcome
  | ok
  | failed
  deriving Repr, DecidableEq

/-- Trace of one `_reconnect_with_backoff` call: the time actually slept
and the value of `self._reconnect_delay` afterwards. -/
structure AttemptTrace where
  sleep : ℚ
  next : Nat
  deriving Repr, DecidableEq

/-- One `_reconnect_with_backoff` call with current delay `d` and drawn
jitter `j` (the code draws `random.uniform(0, 0.5 * d)`): it sleeps
`d + j`, then sets `self._reconnect_delay := min (d * 2) 30`; the
`_connect()` at the end resets the delay to `RECONNECT_BASE_DELAY` when
it succeeds (`ws_client.py` line 134), and leaves the doubled value in
place when it raises. -/
def reconnectAttempt (d : Nat) (j : ℚ) (outcome : ConnectOutcome) :
    AttemptTrace :=
  let sleep := (d : ℚ) + j
  let doubled := min (d * 2) RECONNECT_MAX_DELAY
  match outcome with
  | .failed => ⟨sleep, doubled⟩
  | .ok => ⟨sleep, RECONNECT_BASE_DELAY⟩

/-- The pre-jitter delay used by the `n`-th consecutive failed reconnect
attempt, starting from base delay `d`: each failed attempt leaves
`(reconnectAttempt _ _ .failed).next` as the next delay (jitter does not
feed into it). -/
def delaysFrom (d : Nat) : Nat → Nat
  | 0 => d
  | n + 1 => (reconnectAttempt (delaysFrom d n) 0 .failed).next

/-! ## Single-flight refresh: an interleaving semantics for `TokenManager`

`client.py` runs under asyncio's cooperative scheduler: code between two
`await` points executes atomically, and `asyncio.Lock` gives genuine
mutual exclusion across suspension points.  `get_access_token` has exactly
two suspension points: acquiring `self._lock` (line 98) and the network
round trip `await self._auth_client.refresh(...)` inside `_refresh`
(line 129); releasing the lock at the end of the `async with` block is
synchronous.  A task calling `get_access_token` is therefore in one of
four phases. -/

/-- Program counter of one task executing `TokenManager.get_access_token`. -/
inductive TaskPC
  | start                         -- before acquiring `self._lock`
  | inCheck                       -- holds the lock, about to run lines 99-104
  | awaitingExchange (rt : String) -- holds the lock, suspended in the
                                   -- exchange, having presented `rt`
  | finished (r : Except TMError String) -- returned (lock released)

/-- Shared state of `n` concurrent `get_access_token` calls on one
`TokenManager`: the cached tokens, the lock owner, the number of renewal
exchanges performed so far, and each task's program counter. -/
structure SysState (n : Nat) where
  tokens : Option TokenSet
  lock : Option (Fin n)
  exchanges : Nat
  tasks : Fin n → TaskPC

/-- Interleaving small-step relation for `n` concurrent `get_access_token`
calls.  Each constructor is one atomic block of the Python source:

* `acquire`: `async with self._lock` succeeds when the lock is free.
* `checkNoTokens`: lines 99-100 raise `ValueError("No tokens available")`;
  the `async with` block releases the lock.
* `checkFresh`: the cached set is not expired, so lines 106-109 run and
  the task returns its access token, releasing the lock.
* `checkExpiredNoSecret`: the set is expired and `_refresh` raises at its
  guard (line 126-127) before any suspension; the lock is released.
* `checkExpiredStartExchange`: the set is expired and `_refresh` reaches
  `await self._auth_client.refresh(rt)`, suspending with the lock held.
* `exchangeFail`: the exchange raises; nothing was assigned, the lock is
  released and the error propagates.
* `exchangeOk`: the exchange returns `t1`; `self.tokens = new_tokens`
  runs, then lines 106-109 read the (new) access token and return,
  releasing the lock. -/
inductive Step (dec : JwtDec) (now skew : Int)
    (exchange : String → Except Unit TokenSet) :
    SysState n → SysState n → Prop
  | acquire (s : SysState n) (i : Fin n) :
      s.tasks i = .start → s.lock = none →
      Step dec now skew exchange s
        { s with lock := some i, tasks := Function.update s.tasks i .inCheck }
  | checkNoTokens (s : SysState n) (i : Fin n) :
      s.tasks i = .inCheck → s.lock = some i → s.tokens = none →
      Step dec now skew exchange s
        { s with lock := none
                 tasks := Function.update s.tasks i (.finished (.error .noTokens)) }
  | checkFresh (s : SysState n) (i : Fin n) (ts : TokenSet) :
      s.tasks i = .inCheck → s.lock = some i → s.tokens = some ts →
      ts.is_expired dec now skew = false →
      Step dec now skew exchange s
        { s with lock := none
                 tasks := Function.update s.tasks i (.finished (readAccessToken ts)) }
  | checkExpiredNoSecret (s : SysState n) (i : Fin n) (ts : TokenSet) :
      s.tasks i = .inCheck → s.lock = some i → s.tokens = some ts →
      ts.is_expired dec now skew = true → pyTruthy ts.refresh_token = false →
      Step dec now skew exchange s
        { s with lock := none
                 tasks := Function.update s.tasks i (.finished (.error .noRefreshToken)) }
  | checkExpiredStartExchange (s : SysState n) (i : Fin n) (ts : TokenSet)
      (rt : String) :
      s.tasks i = .inCheck → s.lock = some i → s.tokens = some ts →
      ts.is_expired dec now skew = true → ts.refresh_token = some rt →
      rt.isEmpty = false →
      Step dec now skew exchange s
        { s with tasks := Function.update s.tasks i (.awaitingExchange rt) }
  | exchangeFail (s : SysState n) (i : Fin n) (rt : String) :
      s.tasks i = .awaitingExchange rt → s.lock = some i →
      exchange rt = .error () →
      Step dec now skew exchange s
        { s with lock := none
                 tasks := Function.update s.tasks i (.finished (.error .upstreamRejected)) }
  | exchangeOk (s : SysState n) (i : Fin n) (rt : String) (t1 : TokenSet) :
      s.tasks i = .awaitingExchange rt → s.lock = some i →
      exchange rt = .ok t1 →
      Step dec now skew exchange s
        { tokens := some t1
          lock := none
          exchanges := s.exchanges + 1
          tasks := Function.update s.tasks i (.finished (readAccessToken t1)) }

/-- The initial state of `n` concurrent `get_access_token` calls against a
manager caching `t0`: lock free, no exchange yet, every task about to
acquire. -/
def initSys (n : Nat) (t0 : TokenSet) : SysState n :=
  { tokens := some t0, lock := none, exchanges := 0, tasks := fun _ => .start }

/-- Single-flight invariant for a run that starts with the expired set `t0`
(carrying renewal secret `rt0`) and whose one exchange yields the fresh
set `t1` with access token `a`.  Either no exchange has happened yet
(phase one: tasks are waiting, checking, or suspended in the exchange, and
any task past `start` holds the lock) or the single exchange has happened
(phase two: tasks are waiting, checking, or finished with `a`, and any
checking task holds the lock). -/
def SingleFlightInv (rt0 : String) (t0 t1 : TokenSet) (a : String)
    (s : SysState n) : Prop :=
  (s.exchanges = 0 ∧ s.tokens = some t0
    ∧ (∀ i, s.tasks i = .start ∨ s.tasks i = .inCheck
        ∨ s.tasks i = .awaitingExchange rt0)
    ∧ (∀ i, s.tasks i ≠ .start → s.lock = some i))
  ∨ (s.exchanges = 1 ∧ s.tokens = some t1
    ∧ (∀ i, s.tasks i = .start ∨ s.tasks i = .inCheck
        ∨ s.tasks i = .finished (.ok a))
    ∧ (∀ i, s.tasks i = .inCheck → s.lock = some i))

/-! ## Concrete test inputs

Concrete values used to exercise the definitions above.  Witness tokens
are opaque strings; `decW` models tokens whose JWT payload does not
decode, so expiry goes through the `obtained_at + expires_in` fallback. -/

/-- A JWT-decode oracle for which no token decodes. -/
def decW : JwtDec := fun _ => none

/-- A decode oracle where only the token string `"acc"` decodes, carrying
`exp = 1000000`. -/
def dec0 : JwtDec := fun s => if s = "acc" then some (some 1000000) else none

/-- A token set holding an undecodable id token and a decodable access
token, issued at time 0 with the default 86400-second validity. -/
def ts0 : TokenSet :=
  { id_token := some "bad", access_token := some "acc", obtained_at := 0 }

/-- An expired token set carrying the renewal secret `"rt"`. -/
def wT0 : TokenSet :=
  { access_token := some "old", refresh_token := some "rt",
    expires_in := 0, obtained_at := 0 }

/-- The fresh token set produced by the witness exchange. -/
def wT1 : TokenSet :=
  { access_token := some "new", id_token := some "newid",
    refresh_token := some "rt", obtained_at := 100 }

/-- A witness exchange: presenting `"rt"` succeeds with `wT1`. -/
def exchangeW : String → Except Unit TokenSet :=
  fun rt => if rt = "rt" then .ok wT1 else .error ()

/-- Witness run, step 0: one task, about to acquire the lock. -/
def wS0 : SysState 1 := initSys 1 wT0

/-- Witness run, step 1: the task has acquired the lock. -/
def wS1 : SysState 1 :=
  { wS0 with lock := some 0, tasks := Function.update wS0.tasks 0 .inCheck }

/-- Witness run, step 2: the task found `wT0` expired and suspended in the
renewal exchange, presenting `"rt"`. -/
def wS2 : SysState 1 :=
  { wS1 with tasks := Function.update wS1.tasks 0 (.awaitingExchange "rt") }

/-- Witness run, step 3: the exchange returned `wT1`; the task stored it,
read its access token and finished, releasing the lock. -/
def wS3 : SysState 1 :=
  { tokens := some wT1, lock := none, exchanges := wS2.exchanges + 1,
    tasks := Function.update wS2.tasks 0 (.finished (readAccessToken wT1)) }

/-- The wire shape of a minimal `stateReport` envelope (spec §6) carrying
serial number `sn` and state document `d`. -/
def mkStateReport (sn : String) (d : List (String × Json)) : Json :=
  .obj [("serialNumber", .str sn), ("messageType", .str "stateReport"),
        ("data", .obj d)]

/-- A keepalive acknowledgment frame. -/
def pongMsg : Json := .obj [("messageType", .str "pong")]

/-- A `stateReport` frame that fails validation (its `serialNumber` is a
number, not a string). -/
def badReportMsg : Json :=
  .obj [("serialNumber", .num 7), ("messageType", .str "stateReport"),
        ("data", .obj [])]

/-- The outbound registration message for a registered triple. -/
def addMsgOf (t : String × String × String) : OutMsg :=
  .addAppliance t.1 t.2.1 t.2.2

/-- The usable embedded expiry of a token under a decode oracle: the `exp`
claim when the decode succeeds and the claim is present and nonzero
(Python truthiness), `none` otherwise. -/
def usableExp (dec : JwtDec) (t : String) : Option Int :=
  match dec t with
  | some (some e) => if e = 0 then none else some e
  | _ => none

/-- A token set caching an expired credential with no renewal secret. -/
def tsNoSecret : TokenSet :=
  { access_token := some "old", expires_in := 0, obtained_at := 0 }

/-! ## Helper lemmas -/

theorem pyOr_truthy {a b : Option String} {t : String}
    (h : pyTruthy a = true ∨ pyTruthy b = true)
    (hsel : pyOr a b = some t) : pyTruthy (some t) = true := by
  unfold pyOr at hsel
  by_cases ha : pyTruthy a = true
  · rw [if_pos ha] at hsel
    rw [← hsel]; exact ha
  · rw [if_neg ha] at hsel
    rcases h with h | h
    · exact absurd h ha
    · rw [← hsel]; exact h

theorem is_expired_unfold (ts : TokenSet) (dec : JwtDec) (now skew : Int)
    (t : String)
    (h : pyTruthy ts.id_token = true ∨ pyTruthy ts.access_token = true)
    (hsel : pyOr ts.id_token ts.access_token = some t) :
    ts.is_expired dec now skew =
      match usableExp dec t with
      | some e => decide (now ≥ e - skew)
      | none => decide (now ≥ ts.obtained_at + ts.expires_in - skew) := by
  have hguard : (!pyTruthy ts.id_token && !pyTruthy ts.access_token) = false := by
    rcases h with h | h <;> simp [h]
  have htruthy := pyOr_truthy h hsel
  unfold TokenSet.is_expired
  rw [hguard]
  simp only [Bool.false_eq_true, if_false, hsel, htruthy, if_true, usableExp]
  cases hdec : dec t with
  | none => rfl
  | some o =>
    cases o with
    | none => rfl
    | some e =>
      by_cases he : e = 0
      · subst he; simp
      · simp [he]

/-! ## Claims -/

/-- C2, counterexample.  The claim says that whenever *either* held
credential has a decodable embedded expiry, `is_expired(skew)` is true iff
`now >= that expiry - skew`.  In `ts0` the id token is held but does not
decode, while the access token decodes with expiry 1000000; at
`now = 90000`, `skew = 60` the code answers `true` through the
`obtained_at + expires_in` fallback (it never consults the access token's
expiry once an id token is present), although `90000 < 1000000 - 60`. -/
theorem c2_counterexample :
    ¬ (∀ (t : String) (e : Int),
        (ts0.id_token = some t ∨ ts0.access_token = some t) →
        dec0 t = some (some e) →
        (ts0.is_expired dec0 90000 60 = true ↔ (90000 : Int) ≥ e - 60)) := by
  intro h
  have hbad := (h "acc" 1000000 (Or.inr rfl) (by decide)).mp (by decide)
  exact absurd hbad (by decide)

/-- C2, amended: for every credential set holding at least one truthy
credential, the code consults only the *preferred* credential — the id
token when truthy, else the access token (`self.id_token or
self.access_token`).  If that credential has a decodable, nonzero embedded
expiry, `is_expired(skew)` is true iff `now >= that expiry - skew`;
otherwise `is_expired(skew)` is true iff
`now >= obtained_at + expires_in - skew`. -/
theorem c2_expiry_formula (dec : JwtDec) (now skew : Int) (ts : TokenSet)
    (h : pyTruthy ts.id_token = true ∨ pyTruthy ts.access_token = true) :
    (∀ t e, pyOr ts.id_token ts.access_token = some t →
        usableExp dec t = some e →
        (ts.is_expired dec now skew = true ↔ now ≥ e - skew))
    ∧ (∀ t, pyOr ts.id_token ts.access_token = some t →
        usableExp dec t = none →
        (ts.is_expired dec now skew = true ↔
          now ≥ ts.obtained_at + ts.expires_in - skew)) := by
  constructor
  · intro t e hsel hexp
    rw [is_expired_unfold ts dec now skew t h hsel, hexp]
    simp
  · intro t hsel hexp
    rw [is_expired_unfold ts dec now skew t h hsel, hexp]
    simp

/-- Witness for C2's amended theorem: `ts0` prefers its (undecodable) id
token, so at `now = 90000` it is expired by the fallback formula
`0 + 86400 - 60 <= 90000`. -/
theorem c2_expiry_formula_witness :
    ts0.is_expired dec0 90000 60 = true ↔ (90000 : Int) ≥ 0 + 86400 - 60 :=
  (c2_expiry_formula dec0 90000 60 ts0 (Or.inl (by decide))).2 "bad"
    (by decide) (by decide)

/-- C7: the token set built from a successful refresh response carries
forward the presented refresh token when the response omits one
(`data.get("refresh_token", refresh_token)` in both `AuthClient.refresh`
and `SyncAuthClient.refresh`), and takes the response's token when one is
included. -/
theorem c7_refresh_secret_carry_forward (presented : String)
    (data : OAuthResponse) (now : Int) :
    (data.refresh_token = none →
      (refreshTokenSetFromResponse presented data now).refresh_token
        = some presented)
    ∧ (∀ s, data.refresh_token = some s →
      (refreshTokenSetFromResponse presented data now).refresh_token
        = some s) := by
  constructor
  · intro h; simp [refreshTokenSetFromResponse, h]
  · intro s h; simp [refreshTokenSetFromResponse, h]

/-- Witness for C7 at a response without and a response with a rotated
refresh token. -/
theorem c7_refresh_secret_carry_forward_witness :
    (refreshTokenSetFromResponse "kept" {} 5).refresh_token = some "kept"
    ∧ (refreshTokenSetFromResponse "kept" { refresh_token := some "rotated" }
        5).refresh_token = some "rotated" :=
  ⟨(c7_refresh_secret_carry_forward "kept" {} 5).1 rfl,
   (c7_refresh_secret_carry_forward "kept" { refresh_token := some "rotated" }
      5).2 "rotated" rfl⟩

/-- C8, counterexample.  The claim says an inbound pong is discarded with
no observer callback of any kind; but `_handle_message` invokes the
registered raw-message callback on every message *before* classifying it
(`ws_client.py` lines 198-200), so a pong does reach the raw observer. -/
theorem c8_counterexample :
    ¬ ((handleMessage [] pongMsg).1 = []
       ∧ (handleMessage [] pongMsg).2.states = []
       ∧ (handleMessage [] pongMsg).2.raws = []) := by
  intro h
  have hr := h.2.2
  simp [handleMessage, pongMsg, Json.get] at hr

/-- C8, amended: an inbound pong is discarded with no cache update, no
state event and no state-observer callback, and no warning; only the
unconditional raw-message observer (which is invoked for every inbound
message before classification) sees it. -/
theorem c8_pong_discarded (cache : Cache) (j : Json)
    (h : j.get "messageType" = some (.str "pong")) :
    handleMessage cache j = (cache, ⟨[j], [], false⟩) := by
  unfold handleMessage
  rw [h]
  rfl

/-- Witness for C8's amended theorem at a concrete pong frame. -/
theorem c8_pong_discarded_witness :
    handleMessage [] pongMsg = ([], ⟨[pongMsg], [], false⟩) :=
  c8_pong_discarded [] pongMsg rfl

/-- C4: starting from the 1-second base, the pre-jitter reconnect delay of
the `n`-th consecutive failed attempt is `min (2 ^ n) 30` — i.e. the
sequence `1, 2, 4, 8, 16, 30, 30, ...`; the sleep of one attempt is the
current delay plus the drawn jitter (so at most 1.5x the delay when the
jitter is within half the delay), the next base delay is computed from the
pre-jitter value only (jitter never compounds), and a successful
`_connect` resets the base delay to 1 second. -/
theorem c4_backoff_policy :
    (∀ n, delaysFrom RECONNECT_BASE_DELAY n = min (2 ^ n) RECONNECT_MAX_DELAY)
    ∧ (List.range 7).map (delaysFrom RECONNECT_BASE_DELAY)
        = [1, 2, 4, 8, 16, 30, 30]
    ∧ (∀ (d : Nat) (j : ℚ) (o : ConnectOutcome),
        0 ≤ j → j ≤ (d : ℚ) / 2 →
        (reconnectAttempt d j o).sleep = (d : ℚ) + j
        ∧ (d : ℚ) ≤ (reconnectAttempt d j o).sleep
        ∧ (reconnectAttempt d j o).sleep ≤ 3 / 2 * (d : ℚ)
        ∧ (reconnectAttempt d j o).next = (reconnectAttempt d 0 o).next)
    ∧ (∀ (d : Nat) (j : ℚ),
        (reconnectAttempt d j .ok).next = RECONNECT_BASE_DELAY)
    ∧ (∀ (d : Nat) (j : ℚ),
        (reconnectAttempt d j .failed).next
          = min (d * 2) RECONNECT_MAX_DELAY) := by
  refine ⟨?_, by decide, ?_, ?_, ?_⟩
  · intro n
    induction n with
    | zero => decide
    | succ n ih =>
      have h2 : (2 : Nat) ^ (n + 1) = 2 ^ n * 2 := by rw [pow_succ]
      simp only [delaysFrom, reconnectAttempt, ih, h2, RECONNECT_MAX_DELAY]
      omega
  · intro d j o h0 h1
    cases o <;>
      exact ⟨rfl, by simpa [reconnectAttempt] using h0,
        by simp only [reconnectAttempt]; linarith, rfl⟩
  · intro d j; rfl
  · intro d j; rfl

/-- Witness for C4: the sixth consecutive failure waits the capped 30
seconds; an attempt at delay 4 with jitter 1 sleeps 5 and leaves 8 on
failure; a successful attempt resets to 1. -/
theorem c4_backoff_policy_witness :
    delaysFrom RECONNECT_BASE_DELAY 5 = 30
    ∧ (reconnectAttempt 4 1 .failed).sleep = 5
    ∧ (reconnectAttempt 4 1 .failed).next = 8
    ∧ (reconnectAttempt 4 1 .ok).next = 1 := by
  refine ⟨?_, ?_, ?_, ?_⟩
  · rw [c4_backoff_policy.1 5]; rfl
  · rw [(c4_backoff_policy.2.2.1 4 1 .failed (by norm_num) (by norm_num)).1]
    norm_num
  · rw [c4_backoff_policy.2.2.2.2 4 1]; rfl
  · rw [c4_backoff_policy.2.2.2.1 4 1]; rfl

theorem refreshInner_noSecret (exchange : String → Except Unit TokenSet)
    (s : TMState) (h : hasRenewalSecret s = false) :
    refreshInner exchange s = (s, some .noRefreshToken) := by
  cases hts : s.tokens with
  | none => simp [refreshInner, hts]
  | some ts =>
    have h2 : pyTruthy ts.refresh_token = false := by
      unfold hasRenewalSecret at h
      rw [hts] at h
      simpa using h
    cases hrt : ts.refresh_token with
    | none => simp [refreshInner, hts, hrt]
    | some rt =>
      rw [hrt] at h2
      simp only [pyTruthy, Bool.not_eq_eq_eq_not, Bool.not_false] at h2
      simp [refreshInner, hts, hrt, h2]

theorem refreshInner_error_preserves (exchange : String → Except Unit TokenSet)
    (s : TMState) (e : TMError) :
    (refreshInner exchange s).2 = some e → (refreshInner exchange s).1 = s := by
  cases hts : s.tokens with
  | none => simp [refreshInner, hts]
  | some ts =>
    cases hrt : ts.refresh_token with
    | none => simp [refreshInner, hts, hrt]
    | some rt =>
      by_cases hre : rt.isEmpty
      · simp [refreshInner, hts, hrt, hre]
      · cases hex : exchange rt with
        | error u => simp [refreshInner, hts, hrt, hre, hex]
        | ok nt => simp [refreshInner, hts, hrt, hre, hex]

theorem refreshInner_ok_tokens (exchange : String → Except Unit TokenSet)
    (s s1 : TMState) (h : refreshInner exchange s = (s1, none)) :
    ∃ nt, s1.tokens = some nt := by
  cases hts : s.tokens with
  | none => simp [refreshInner, hts] at h
  | some ts =>
    cases hrt : ts.refresh_token with
    | none => simp [refreshInner, hts, hrt] at h
    | some rt =>
      by_cases hre : rt.isEmpty
      · simp [refreshInner, hts, hrt, hre] at h
      · cases hex : exchange rt with
        | error u => simp [refreshInner, hts, hrt, hre, hex] at h
        | ok nt =>
          simp only [refreshInner, hts, hrt, hre, if_false, hex,
            Bool.false_eq_true, Prod.mk.injEq, and_true] at h
          exact ⟨nt, by rw [← h]⟩

/-- C3: when the cached set carries no (truthy) renewal secret, forcing a
refresh fails with the no-refresh-token error and leaves the state
untouched, and an expired get-access/get-identity call fails the same way;
moreover any failed renewal attempt — at the `_refresh` level and at the
`refresh` level — leaves the cached set exactly as it was. -/
theorem c3_failed_renewal_preserves_cache
    (exchange : String → Except Unit TokenSet) (s : TMState) :
    (hasRenewalSecret s = false →
      forceRefresh exchange s = (s, .error .noRefreshToken))
    ∧ (∀ (dec : JwtDec) (now skew : Int) (ts : TokenSet),
        s.tokens = some ts → ts.is_expired dec now skew = true →
        hasRenewalSecret s = false →
        getAccess dec now skew exchange s = (s, .error .noRefreshToken)
        ∧ getId dec now skew exchange s = (s, .error .noRefreshToken))
    ∧ (∀ e, (refreshInner exchange s).2 = some e →
        (refreshInner exchange s).1 = s)
    ∧ (∀ e, (forceRefresh exchange s).2 = .error e →
        (forceRefresh exchange s).1 = s) := by
  refine ⟨?_, ?_, refreshInner_error_preserves exchange s, ?_⟩
  · intro h
    rw [forceRefresh, refreshInner_noSecret exchange s h]
  · intro dec now skew ts hts hexp h
    constructor
    · rw [getAccess, hts]
      simp only [hexp, if_true, refreshInner_noSecret exchange s h]
    · rw [getId, hts]
      simp only [hexp, if_true, refreshInner_noSecret exchange s h]
  · intro e
    rw [forceRefresh]
    cases hri : refreshInner exchange s with
    | mk s1 err =>
      cases err with
      | some e1 =>
        intro _
        have h1 := refreshInner_error_preserves exchange s e1
          (by rw [hri])
        rw [hri] at h1
        exact h1
      | none =>
        obtain ⟨nt, hnt⟩ := refreshInner_ok_tokens exchange s s1 hri
        simp [hnt]

/-- Witness for C3 at a manager caching an expired set with no refresh
token. -/
theorem c3_failed_renewal_preserves_cache_witness :
    forceRefresh exchangeW ⟨some tsNoSecret⟩
      = (⟨some tsNoSecret⟩, .error .noRefreshToken)
    ∧ getAccess decW 100 60 exchangeW ⟨some tsNoSecret⟩
      = (⟨some tsNoSecret⟩, .error .noRefreshToken) := by
  refine ⟨(c3_failed_renewal_preserves_cache exchangeW ⟨some tsNoSecret⟩).1
      (by decide), ?_⟩
  exact ((c3_failed_renewal_preserves_cache exchangeW ⟨some tsNoSecret⟩).2.1
      decW 100 60 tsNoSecret rfl (by decide) (by decide)).1

theorem getEntry_map_replace (c : Cache) (k : String) (v : DeviceState)
    (h : List.any c (fun p => p.1 == k) = true) :
    Cache.getEntry (List.map (fun p => if p.1 == k then (k, v) else p) c) k
      = some v := by
  induction c with
  | nil => simp at h
  | cons p c ih =>
    by_cases hp : (p.1 == k) = true
    · unfold Cache.getEntry
      rw [List.map_cons, if_pos hp, List.find?_cons_of_pos _ (by simp)]
      rfl
    · have h2 : List.any c (fun p => p.1 == k) = true := by
        rw [List.any_cons] at h
        exact (Bool.or_eq_true _ _ |>.mp h).resolve_left hp
      unfold Cache.getEntry
      rw [List.map_cons, if_neg hp,
        List.find?_cons_of_neg _ (by simpa using hp)]
      exact ih h2

theorem getEntry_append_new (c : Cache) (k : String) (v : DeviceState)
    (h : List.any c (fun p => p.1 == k) = false) :
    Cache.getEntry (c ++ [(k, v)]) k = some v := by
  induction c with
  | nil =>
    unfold Cache.getEntry
    rw [List.nil_append, List.find?_cons_of_pos _ (by simp)]
    rfl
  | cons p c ih =>
    rw [List.any_cons, Bool.or_eq_false_iff] at h
    unfold Cache.getEntry
    rw [List.cons_append, List.find?_cons_of_neg _ (by simp [h.1])]
    exact ih h.2

theorem Cache.getEntry_update_self (c : Cache) (k : String) (v : DeviceState) :
    Cache.getEntry (Cache.update c k v) k = some v := by
  unfold Cache.update
  by_cases h : List.any c (fun p => p.1 == k) = true
  · rw [if_pos h]; exact getEntry_map_replace c k v h
  · rw [if_neg h]
    exact getEntry_append_new c k v (Bool.eq_false_iff.mpr h)

theorem map_replace_keys (c : Cache) (k : String) (v : DeviceState) :
    List.map Prod.fst (List.map (fun p => if p.1 == k then (k, v) else p) c)
      = List.map Prod.fst c := by
  induction c with
  | nil => rfl
  | cons p c ih =>
    by_cases hp : (p.1 == k) = true
    · have hpk : p.1 = k := by simpa using hp
      simp only [List.map_cons, if_pos hp, ih]
      rw [hpk]
    · simp only [List.map_cons, if_neg hp, ih]

theorem Cache.update_keys_nodup (c : Cache) (k : String) (v : DeviceState)
    (h : (List.map Prod.fst c).Nodup) :
    (List.map Prod.fst (Cache.update c k v)).Nodup := by
  unfold Cache.update
  by_cases hmem : List.any c (fun p => p.1 == k) = true
  · rw [if_pos hmem, map_replace_keys]; exact h
  · rw [if_neg hmem]
    have hk : k ∉ List.map Prod.fst c := by
      intro hmem2
      obtain ⟨p, hp, hpk⟩ := List.mem_map.mp hmem2
      apply hmem
      rw [List.any_eq_true]
      exact ⟨p, hp, by simp [hpk]⟩
    have hdisj : List.Disjoint (List.map Prod.fst c) [k] := by
      intro a ha hak
      rw [List.mem_singleton] at hak
      exact hk (hak ▸ ha)
    simp only [List.map_append, List.map_cons, List.map_nil]
    rw [List.nodup_append]
    refine ⟨h, List.nodup_singleton k, ?_⟩
    intro a ha hak
    rw [List.mem_singleton] at hak
    exact hk (hak ▸ ha)

theorem handleMessage_stateReport (c : Cache) (sn : String)
    (d : List (String × Json)) :
    handleMessage c (mkStateReport sn d)
      = (Cache.update c sn ⟨d, sn, none⟩,
         ⟨[mkStateReport sn d], [⟨d, sn, none⟩], false⟩) := rfl

/-- C6: the dispatcher's cache is keyed by device serial with last-write-
wins: dispatching reports for X, then Y, then X again (X ≠ Y) leaves
exactly the two entries X and Y, X holding the state parsed from the
second X report only; in general an update stores the new state under its
key and preserves key uniqueness. -/
theorem c6_cache_last_write_wins (sX sY : String)
    (dX1 dY dX2 : List (String × Json)) (hne : sX ≠ sY) :
    (handleMessage
        (handleMessage
          (handleMessage [] (mkStateReport sX dX1)).1
          (mkStateReport sY dY)).1
        (mkStateReport sX dX2)).1
      = [(sX, ⟨dX2, sX, none⟩), (sY, ⟨dY, sY, none⟩)]
    ∧ Cache.getEntry (handleMessage
        (handleMessage
          (handleMessage [] (mkStateReport sX dX1)).1
          (mkStateReport sY dY)).1
        (mkStateReport sX dX2)).1 sX = some ⟨dX2, sX, none⟩
    ∧ Cache.getEntry (handleMessage
        (handleMessage
          (handleMessage [] (mkStateReport sX dX1)).1
          (mkStateReport sY dY)).1
        (mkStateReport sX dX2)).1 sY = some ⟨dY, sY, none⟩
    ∧ (∀ (c : Cache) (k : String) (v : DeviceState),
        Cache.getEntry (Cache.update c k v) k = some v)
    ∧ (∀ (c : Cache) (k : String) (v : DeviceState),
        (List.map Prod.fst c).Nodup →
        (List.map Prod.fst (Cache.update c k v)).Nodup) := by
  have hXY : (sX == sY) = false := by simp [hne]
  have hYX : (sY == sX) = false := by simp [Ne.symm hne]
  have u1 : Cache.update [] sX ⟨dX1, sX, none⟩ = [(sX, ⟨dX1, sX, none⟩)] := rfl
  have u2 : Cache.update [(sX, ⟨dX1, sX, none⟩)] sY ⟨dY, sY, none⟩
      = [(sX, ⟨dX1, sX, none⟩), (sY, ⟨dY, sY, none⟩)] := by
    unfold Cache.update
    rw [if_neg (by simp [hXY])]
    rfl
  have u3 : Cache.update [(sX, ⟨dX1, sX, none⟩), (sY, ⟨dY, sY, none⟩)] sX
        ⟨dX2, sX, none⟩
      = [(sX, ⟨dX2, sX, none⟩), (sY, ⟨dY, sY, none⟩)] := by
    unfold Cache.update
    rw [if_pos (by simp)]
    simp only [List.map_cons, List.map_nil, if_pos (by simp : ((sX, (⟨dX1, sX, none⟩ : DeviceState)).1 == sX) = true),
      if_neg (by simp [hYX] : ¬ (((sY, (⟨dY, sY, none⟩ : DeviceState)).1 == sX) = true))]
  have hchain : (handleMessage
        (handleMessage
          (handleMessage [] (mkStateReport sX dX1)).1
          (mkStateReport sY dY)).1
        (mkStateReport sX dX2)).1
      = [(sX, ⟨dX2, sX, none⟩), (sY, ⟨dY, sY, none⟩)] := by
    rw [handleMessage_stateReport, handleMessage_stateReport,
      handleMessage_stateReport, u1, u2, u3]
  refine ⟨hchain, ?_, ?_, Cache.getEntry_update_self, Cache.update_keys_nodup⟩
  · rw [hchain]
    unfold Cache.getEntry
    rw [List.find?_cons_of_pos _ (by simp)]
    rfl
  · rw [hchain]
    unfold Cache.getEntry
    rw [List.find?_cons_of_neg _ (by simp [hXY]),
      List.find?_cons_of_pos _ (by simp)]
    rfl

/-- Witness for C6 at the two concrete serials `"X"` and `"Y"`. -/
theorem c6_cache_last_write_wins_witness :
    (handleMessage
        (handleMessage
          (handleMessage [] (mkStateReport "X" [("v", .num 1)])).1
          (mkStateReport "Y" [("v", .num 2)])).1
        (mkStateReport "X" [("v", .num 3)])).1
      = [("X", ⟨[("v", .num 3)], "X", none⟩), ("Y", ⟨[("v", .num 2)], "Y", none⟩)] :=
  (c6_cache_last_write_wins "X" "Y" [("v", .num 1)] [("v", .num 2)]
    [("v", .num 3)] (by decide)).1

theorem addAppliance_mem (s : WsState) (t : String × String × String)
    (hc : s.connected = true) (ht : t ∈ s.appliances) :
    addAppliance s t.1 t.2.1 t.2.2 = { s with sent := s.sent ++ [addMsgOf t] } := by
  simp [addAppliance, hc, ht, addMsgOf]

theorem foldl_addAppliance (l : List (String × String × String)) (s : WsState)
    (hc : s.connected = true) (hsub : ∀ t ∈ l, t ∈ s.appliances) :
    List.foldl (fun st t => addAppliance st t.1 t.2.1 t.2.2) s l
      = { s with sent := s.sent ++ l.map addMsgOf } := by
  induction l generalizing s with
  | nil => simp
  | cons t l ih =>
    rw [List.foldl_cons, addAppliance_mem s t hc (hsub t (by simp))]
    rw [ih { s with sent := s.sent ++ [addMsgOf t] } hc
      (fun u hu => hsub u (by simp [hu]))]
    simp

theorem connectAndReplay_eq (s : WsState) :
    connectAndReplay s = ⟨s.appliances, true, s.appliances.map addMsgOf⟩ := by
  unfold connectAndReplay replayAppliances
  rw [foldl_addAppliance s.appliances { s with connected := true, sent := [] }
    rfl (fun _ ht => ht)]
  simp

theorem addMsgOf_injective : Function.Injective addMsgOf := by
  intro a b h
  obtain ⟨a1, a2, a3⟩ := a
  obtain ⟨b1, b2, b3⟩ := b
  simp only [addMsgOf, OutMsg.addAppliance.injEq] at h
  simp [h.1, h.2.1, h.2.2]

/-- C5: after a (re)connect, every registered subscription triple is
re-sent over the fresh connection, in original registration order; with a
duplicate-free registration list each triple's message is sent exactly
once; and registration itself is duplicate-suppressed: registering an
already-present triple leaves the list unchanged, and registration
preserves duplicate-freeness. -/
theorem c5_subscriptions_replayed (apps : List (String × String × String))
    (c0 : Bool) (sent0 : List OutMsg) :
    (connectAndReplay ⟨apps, c0, sent0⟩).sent = apps.map addMsgOf
    ∧ (apps.Nodup → ∀ t ∈ apps,
        ((connectAndReplay ⟨apps, c0, sent0⟩).sent).count (addMsgOf t) = 1)
    ∧ (∀ (s : WsState) (serial app model : String),
        (serial, app, model) ∈ s.appliances →
        (addAppliance s serial app model).appliances = s.appliances)
    ∧ (∀ (s : WsState) (serial app model : String), s.appliances.Nodup →
        (addAppliance s serial app model).appliances.Nodup) := by
  refine ⟨?_, ?_, ?_, ?_⟩
  · rw [connectAndReplay_eq]
  · intro hnd t ht
    rw [connectAndReplay_eq]
    exact List.count_eq_one_of_mem (hnd.map addMsgOf_injective)
      (List.mem_map_of_mem addMsgOf ht)
  · intro s serial app model h
    cases hc2 : s.connected <;> simp [addAppliance, h, hc2]
  · intro s serial app model hnd
    by_cases h : (serial, app, model) ∈ s.appliances
    · cases hc2 : s.connected <;> simpa [addAppliance, h, hc2] using hnd
    · have happ : (s.appliances ++ [(serial, app, model)]).Nodup := by
        rw [List.nodup_append]
        refine ⟨hnd, List.nodup_singleton _, ?_⟩
        intro a ha hak
        rw [List.mem_singleton] at hak
        exact h (hak ▸ ha)
      cases hc2 : s.connected <;> simpa [addAppliance, h, hc2] using happ

/-- Witness for C5: two registered appliances are replayed in order with a
single message each after a reconnect. -/
theorem c5_subscriptions_replayed_witness :
    (connectAndReplay ⟨[("a", "b", "c"), ("d", "e", "f")], false, [.ping]⟩).sent
      = [.addAppliance "a" "b" "c", .addAppliance "d" "e" "f"]
    ∧ ((connectAndReplay ⟨[("a", "b", "c"), ("d", "e", "f")], false,
        [.ping]⟩).sent).count (.addAppliance "a" "b" "c") = 1 :=
  ⟨(c5_subscriptions_replayed [("a", "b", "c"), ("d", "e", "f")] false
      [.ping]).1,
   (c5_subscriptions_replayed [("a", "b", "c"), ("d", "e", "f")] false
      [.ping]).2.1 (by decide) ("a", "b", "c") (by decide)⟩

/-- C10: calling `add_appliance` while no transport handle is held returns
normally without sending anything: the triple is recorded in the
registration list, the connection flag and sent log are untouched, and the
triple's subscription message goes out when a connection is next
established and registrations are replayed. -/
theorem c10_register_while_disconnected (s : WsState)
    (serial app model : String) (h : s.connected = false) :
    (addAppliance s serial app model).sent = s.sent
    ∧ (addAppliance s serial app model).connected = s.connected
    ∧ (serial, app, model) ∈ (addAppliance s serial app model).appliances
    ∧ addMsgOf (serial, app, model)
        ∈ (connectAndReplay (addAppliance s serial app model)).sent := by
  have hmem : (serial, app, model) ∈ (addAppliance s serial app model).appliances := by
    by_cases hm : (serial, app, model) ∈ s.appliances
    · cases hc2 : s.connected <;> simp [addAppliance, hm, hc2]
    · cases hc2 : s.connected <;> simp [addAppliance, hm, hc2]
  refine ⟨?_, ?_, hmem, ?_⟩
  · by_cases hm : (serial, app, model) ∈ s.appliances <;>
      simp [addAppliance, h, hm]
  · by_cases hm : (serial, app, model) ∈ s.appliances <;>
      simp [addAppliance, h, hm]
  · rw [connectAndReplay_eq]
    exact List.mem_map_of_mem addMsgOf hmem

/-- Witness for C10: registering on a disconnected client records the
triple and sends nothing; the next connect replays it. -/
theorem c10_register_while_disconnected_witness :
    (addAppliance ⟨[], false, []⟩ "a" "b" "c").sent = []
    ∧ addMsgOf ("a", "b", "c")
        ∈ (connectAndReplay (addAppliance ⟨[], false, []⟩ "a" "b" "c")).sent :=
  ⟨(c10_register_while_disconnected ⟨[], false, []⟩ "a" "b" "c" rfl).1,
   (c10_register_while_disconnected ⟨[], false, []⟩ "a" "b" "c" rfl).2.2.2⟩

theorem singleFlightInv_step
    {n : Nat} (dec : JwtDec) (now skew : Int)
    (exchange : String → Except Unit TokenSet)
    (rt0 : String) (t0 t1 : TokenSet) (a : String)
    (h0exp : t0.is_expired dec now skew = true)
    (h0rt : t0.refresh_token = some rt0)
    (h0rtne : rt0.isEmpty = false)
    (hex : exchange rt0 = .ok t1)
    (h1fresh : t1.is_expired dec now skew = false)
    (h1acc : readAccessToken t1 = .ok a)
    {s s' : SysState n}
    (hinv : SingleFlightInv rt0 t0 t1 a s)
    (hstep : Step dec now skew exchange s s') :
    SingleFlightInv rt0 t0 t1 a s' := by
  cases hstep with
  | acquire i hti hlock =>
    rcases hinv with ⟨he, htok, htri, hlck⟩ | ⟨he, htok, htri, hlck⟩
    · left
      refine ⟨he, htok, ?_, ?_⟩
      · intro j
        by_cases hji : j = i
        · subst hji; right; left; simp only [Function.update_same]
        · simp only [Function.update_noteq hji]; exact htri j
      · intro j hj
        by_cases hji : j = i
        · subst hji; rfl
        · simp only [Function.update_noteq hji] at hj
          have hcontra := hlck j hj
          rw [hlock] at hcontra
          exact absurd hcontra (by simp)
    · right
      refine ⟨he, htok, ?_, ?_⟩
      · intro j
        by_cases hji : j = i
        · subst hji; right; left; simp only [Function.update_same]
        · simp only [Function.update_noteq hji]; exact htri j
      · intro j hj
        by_cases hji : j = i
        · subst hji; rfl
        · simp only [Function.update_noteq hji] at hj
          have hcontra := hlck j hj
          rw [hlock] at hcontra
          exact absurd hcontra (by simp)
  | checkNoTokens i hti hlock htok0 =>
    rcases hinv with ⟨_, htok, _, _⟩ | ⟨_, htok, _, _⟩ <;>
      · rw [htok0] at htok
        exact absurd htok (by simp)
  | checkFresh i ts hti hlock htok hfresh =>
    rcases hinv with ⟨he, htok', htri, hlck⟩ | ⟨he, htok', htri, hlck⟩
    · have hts : ts = t0 := by
        have h := htok.symm.trans htok'
        injection h
      subst hts
      rw [h0exp] at hfresh
      exact Bool.noConfusion hfresh
    · have hts : ts = t1 := by
        have h := htok.symm.trans htok'
        injection h
      subst hts
      right
      refine ⟨he, htok', ?_, ?_⟩
      · intro j
        by_cases hji : j = i
        · subst hji; right; right
          simp only [Function.update_same, h1acc]
        · simp only [Function.update_noteq hji]; exact htri j
      · intro j hj
        by_cases hji : j = i
        · subst hji
          simp only [Function.update_same] at hj
          exact TaskPC.noConfusion hj
        · simp only [Function.update_noteq hji] at hj
          have hcontra := hlck j hj
          rw [hlock] at hcontra
          injection hcontra with hh
          exact absurd hh.symm hji
  | checkExpiredNoSecret i ts hti hlock htok hexp hnosec =>
    rcases hinv with ⟨he, htok', htri, hlck⟩ | ⟨he, htok', htri, hlck⟩
    · have hts : ts = t0 := by
        have h := htok.symm.trans htok'
        injection h
      subst hts
      rw [h0rt] at hnosec
      simp [pyTruthy, h0rtne] at hnosec
    · have hts : ts = t1 := by
        have h := htok.symm.trans htok'
        injection h
      subst hts
      rw [h1fresh] at hexp
      exact Bool.noConfusion hexp
  | checkExpiredStartExchange i ts rt hti hlock htok hexp hrt hrtne =>
    rcases hinv with ⟨he, htok', htri, hlck⟩ | ⟨he, htok', htri, hlck⟩
    · have hts : ts = t0 := by
        have h := htok.symm.trans htok'
        injection h
      subst hts
      have hrteq : rt = rt0 := by
        have h := hrt.symm.trans h0rt
        injection h
      subst hrteq
      left
      refine ⟨he, htok', ?_, ?_⟩
      · intro j
        by_cases hji : j = i
        · subst hji; right; right; simp only [Function.update_same]
        · simp only [Function.update_noteq hji]; exact htri j
      · intro j hj
        by_cases hji : j = i
        · subst hji; exact hlock
        · simp only [Function.update_noteq hji] at hj
          exact hlck j hj
    · have hts : ts = t1 := by
        have h := htok.symm.trans htok'
        injection h
      subst hts
      rw [h1fresh] at hexp
      exact Bool.noConfusion hexp
  | exchangeFail i rt hti hlock hexf =>
    rcases hinv with ⟨he, htok', htri, hlck⟩ | ⟨he, htok', htri, hlck⟩
    · rcases htri i with h | h | h
      · rw [hti] at h; exact TaskPC.noConfusion h
      · rw [hti] at h; exact TaskPC.noConfusion h
      · rw [hti] at h
        injection h with hrteq
        subst hrteq
        rw [hex] at hexf
        exact Except.noConfusion hexf
    · rcases htri i with h | h | h <;>
        · rw [hti] at h; exact TaskPC.noConfusion h
  | exchangeOk i rt t1' hti hlock hexo =>
    rcases hinv with ⟨he, htok', htri, hlck⟩ | ⟨he, htok', htri, hlck⟩
    · have hrteq : rt = rt0 := by
        rcases htri i with h | h | h
        · rw [hti] at h; exact TaskPC.noConfusion h
        · rw [hti] at h; exact TaskPC.noConfusion h
        · rw [hti] at h; injection h
      subst hrteq
      have ht1 : t1' = t1 := by
        have h := hexo.symm.trans hex
        injection h
      subst ht1
      right
      refine ⟨by simp [he], rfl, ?_, ?_⟩
      · intro j
        by_cases hji : j = i
        · subst hji; right; right
          simp only [Function.update_same, h1acc]
        · simp only [Function.update_noteq hji]
          left
          by_contra hns
          have hcontra := hlck j hns
          rw [hlock] at hcontra
          injection hcontra with hh
          exact hji hh.symm
      · intro j hj
        by_cases hji : j = i
        · subst hji
          simp only [Function.update_same] at hj
          exact TaskPC.noConfusion hj
        · simp only [Function.update_noteq hji] at hj
          have hcontra := hlck j (by rw [hj]; exact fun hc => TaskPC.noConfusion hc)
          rw [hlock] at hcontra
          injection hcontra with hh
          exact absurd hh.symm hji
    · rcases htri i with h | h | h <;>
        · rw [hti] at h; exact TaskPC.noConfusion h

/-- C1: for every group of `n > 0` concurrent `get_access_token` calls
issued while the cached set `t0` is expired (with a usable renewal secret
`rt0` whose exchange yields the fresh set `t1` carrying access token `a`),
every complete interleaved execution performs exactly one renewal exchange
— the expiry check and the renewal both run inside the held lock, and a
waiter that finds the set already fresh after acquiring returns without
renewing — and all `n` calls return the same renewed credential `a`. -/
theorem c1_single_flight_refresh
    {n : Nat} (dec : JwtDec) (now skew : Int)
    (exchange : String → Except Unit TokenSet)
    (rt0 : String) (t0 t1 : TokenSet) (a : String)
    (h0exp : t0.is_expired dec now skew = true)
    (h0rt : t0.refresh_token = some rt0)
    (h0rtne : rt0.isEmpty = false)
    (hex : exchange rt0 = .ok t1)
    (h1fresh : t1.is_expired dec now skew = false)
    (h1acc : readAccessToken t1 = .ok a)
    (hn : 0 < n) (s : SysState n)
    (hreach : Relation.ReflTransGen (Step dec now skew exchange)
      (initSys n t0) s)
    (hdone : ∀ i, ∃ r, s.tasks i = .finished r) :
    s.exchanges = 1 ∧ ∀ i, s.tasks i = .finished (.ok a) := by
  have hinv : SingleFlightInv rt0 t0 t1 a s := by
    clear hdone
    induction hreach with
    | refl =>
      left
      exact ⟨rfl, rfl, fun i => Or.inl rfl, fun i hi => absurd rfl hi⟩
    | tail hsteps hstep ih =>
      exact singleFlightInv_step dec now skew exchange rt0 t0 t1 a
        h0exp h0rt h0rtne hex h1fresh h1acc ih hstep
  rcases hinv with ⟨he, htok, htri, hlck⟩ | ⟨he, htok, htri, hlck⟩
  · obtain ⟨r, hr⟩ := hdone ⟨0, hn⟩
    rcases htri ⟨0, hn⟩ with h | h | h <;>
      · rw [hr] at h; exact TaskPC.noConfusion h
  · refine ⟨he, ?_⟩
    intro i
    obtain ⟨r, hr⟩ := hdone i
    rcases htri i with h | h | h
    · rw [hr] at h; exact TaskPC.noConfusion h
    · rw [hr] at h; exact TaskPC.noConfusion h
    · exact h

/-- Witness for C1: one task acquires the lock, finds `wT0` expired,
performs the single exchange, and finishes with the renewed token. -/
theorem c1_single_flight_refresh_witness :
    wS3.exchanges = 1 ∧ wS3.tasks 0 = .finished (.ok "new") := by
  have s01 : Step decW 100 60 exchangeW wS0 wS1 :=
    Step.acquire wS0 0 rfl rfl
  have s12 : Step decW 100 60 exchangeW wS1 wS2 :=
    Step.checkExpiredStartExchange wS1 0 wT0 "rt" rfl rfl rfl (by decide)
      rfl (by decide)
  have s23 : Step decW 100 60 exchangeW wS2 wS3 :=
    Step.exchangeOk wS2 0 "rt" wT1 rfl rfl (by simp [exchangeW])
  have hreach : Relation.ReflTransGen (Step decW 100 60 exchangeW)
      (initSys 1 wT0) wS3 :=
    Relation.ReflTransGen.head s01
      (Relation.ReflTransGen.head s12 (Relation.ReflTransGen.single s23))
  have hdone : ∀ i : Fin 1, ∃ r, wS3.tasks i = .finished r := by
    intro i
    have hi : i = 0 := Subsingleton.elim i 0
    subst hi
    exact ⟨readAccessToken wT1, rfl⟩
  have h := c1_single_flight_refresh decW 100 60 exchangeW "rt" wT0 wT1 "new"
    (by decide) rfl (by decide) (by simp [exchangeW]) (by decide) rfl
    (by decide) wS3 hreach hdone
  exact ⟨h.1, h.2 0⟩

/-- C9: a frame that fails `json.loads`, or a `stateReport` whose payload
fails validation, is non-fatal: the dispatcher returns normally, logs a
warning (the raw observer additionally receives the undecodable-payload
message), leaves the cache and the state-event stream untouched by that
frame, and the receive loop goes on to process the remaining frames. -/
theorem c9_parse_failures_nonfatal (st : LoopState) (f : Frame)
    (rest : List Frame)
    (hbad : f = .malformed
      ∨ ∃ j, f = .data j ∧ Json.get j "messageType" = some (.str "stateReport")
          ∧ StateReport.model_validate j = none) :
    (receiveStep st f).cache = st.cache
    ∧ (receiveStep st f).states = st.states
    ∧ (receiveStep st f).jsonWarnings + (receiveStep st f).parseWarnings
        = st.jsonWarnings + st.parseWarnings + 1
    ∧ receiveLoop st (f :: rest) = receiveLoop (receiveStep st f) rest := by
  have hloop : receiveLoop st (f :: rest) = receiveLoop (receiveStep st f) rest := rfl
  rcases hbad with h | ⟨j, h, hmt, hval⟩
  · subst h
    exact ⟨rfl, rfl, by simp only [receiveStep]; omega, hloop⟩
  · subst h
    have hh : handleMessage st.cache j = (st.cache, ⟨[j], [], true⟩) := by
      unfold handleMessage
      rw [hmt, hval]
      rfl
    refine ⟨?_, ?_, ?_, hloop⟩ <;> simp [receiveStep, hh]
    omega

/-- Witness for C9: a non-JSON frame followed by an invalid `stateReport`,
then a valid pong, processed from a fresh loop state. -/
theorem c9_parse_failures_nonfatal_witness :
    (receiveStep ⟨[], [], [], [], 0, 0⟩ .malformed).cache = []
    ∧ (receiveStep ⟨[], [], [], [], 0, 0⟩ (.data badReportMsg)).cache = []
    ∧ receiveLoop ⟨[], [], [], [], 0, 0⟩ [.data badReportMsg, .data pongMsg]
        = receiveLoop (receiveStep ⟨[], [], [], [], 0, 0⟩ (.data badReportMsg))
            [.data pongMsg] :=
  ⟨(c9_parse_failures_nonfatal ⟨[], [], [], [], 0, 0⟩ .malformed []
      (Or.inl rfl)).1,
   (c9_parse_failures_nonfatal ⟨[], [], [], [], 0, 0⟩ (.data badReportMsg) []
      (Or.inr ⟨badReportMsg, rfl, rfl, rfl⟩)).1,
   (c9_parse_failures_nonfatal ⟨[], [], [], [], 0, 0⟩ (.data badReportMsg)
      [.data pongMsg] (Or.inr ⟨badReportMsg, rfl, rfl, rfl⟩)).2.2.2⟩

end SageCoffee
